import Mathlib

/-!
Verification development for the Kepler light-curve batch pipeline
(`scripts/process_kic_target.py`, `main.py`, `utils/plot_deviation.py`).

The Python code is shallowly embedded: external capabilities
(`lightkurve` search/download, the filesystem) are modelled as explicit
parameters, floating-point values as exact rationals (`ℚ`), and the
special "missing value" marker (IEEE NaN) as `none` in `Option ℚ`.
-/

/-- Deviation values as stored in arrays: `none` is the NaN missing-value
marker produced when a time bin holds no valid samples; `some q` a finite
percentage deviation, modelled as an exact rational. -/
abbrev Val := Option ℚ

/-- Model of a downloaded light-curve object (`lc` in the source): the
only field the orchestrator reads is `lc.filename`. -/
structure RawLC where
  filename : String
deriving DecidableEq

instance instDecEqExcept {ε α : Type} [DecidableEq ε] [DecidableEq α] :
    DecidableEq (Except ε α) := fun a b =>
  match a, b with
  | .ok x, .ok y => if h : x = y then .isTrue (by rw [h]) else .isFalse (by simp [h])
  | .error x, .error y => if h : x = y then .isTrue (by rw [h]) else .isFalse (by simp [h])
  | .ok _, .error _ => .isFalse (by simp)
  | .error _, .ok _ => .isFalse (by simp)

/-- Behaviour of one handle's blocking `lc_file.download()` capability:
either it returns at wall-clock time `t` (seconds) with a result or a
raised exception message, or it never returns. -/
inductive DlCap : Type
  | returns (t : ℚ) (res : Except String RawLC)
  | never
deriving DecidableEq

/-- What `download_with_timeout` returns in the source: the triple
`(success, lc, error)` plus the wall-clock time the call itself took
(the `thread.join(timeout)` wait). -/
structure DwtResult where
  success : Bool
  lc : Option RawLC
  error : Option String
  elapsed : ℚ
deriving DecidableEq

/-- Embedding of `download_with_timeout` (process_kic_target.py lines
16-42): run the capability in a thread, `join` with the timeout; if the
thread is still alive afterwards report a timeout and detach, otherwise
propagate the thread's recorded result or error. -/
def download_with_timeout (cap : DlCap) (timeout : ℚ) : DwtResult :=
  match cap with
  | .never => ⟨false, none, some "Download timed out", timeout⟩
  | .returns t res =>
    if t ≤ timeout then
      match res with
      | .ok lc => ⟨true, some lc, none, t⟩
      | .error e => ⟨false, none, some e, t⟩
    else ⟨false, none, some "Download timed out", timeout⟩

/-- Environment of one `RemoteFileHandle` in the search result: its
download capability, whether `Path(lc.filename).exists()` holds after a
successful download, and the outcome of
`get_lightcurve_deviation_array` on that path (an exception message, or
the returned deviation slice). -/
structure HandleEnv where
  cap : DlCap
  fileExists : Bool
  convert : Except String (List Val)
deriving DecidableEq

/-- Mutable loop state of the batch: the accumulated `all_deviations`
list and the two metadata counters. -/
structure LoopState where
  all_deviations : List Val
  processed : ℕ
  skipped : ℕ
deriving DecidableEq

/-- Control flow of one loop iteration after the timed download
returned `r`: on failure skip; on success check the returned path
exists, run the conversion, and either append the slice and count the
file processed, or (on any raised exception) count it skipped. -/
def stepBody (r : DwtResult) (h : HandleEnv) (s : LoopState) : LoopState :=
  if r.success = false then
    { s with skipped := s.skipped + 1 }
  else
    match r.lc with
    | none => { s with skipped := s.skipped + 1 }
    | some _ =>
      if h.fileExists = false then
        { s with skipped := s.skipped + 1 }
      else
        match h.convert with
        | .error _ => { s with skipped := s.skipped + 1 }
        | .ok dev =>
          { all_deviations := s.all_deviations ++ dev
            processed := s.processed + 1
            skipped := s.skipped }

/-- One iteration of the per-file loop (process_kic_target.py lines
91-130): run `download_with_timeout` on the handle, then the body. -/
def stepHandle (timeout : ℚ) (h : HandleEnv) (s : LoopState) : LoopState :=
  stepBody (download_with_timeout h.cap timeout) h s

/-- The sequential `for` loop over the (limited) handle list. -/
def runLoop (timeout : ℚ) (hs : List HandleEnv) (s : LoopState) : LoopState :=
  hs.foldl (fun acc h => stepHandle timeout h acc) s

/-- The `metadata` dict written to `metadata.json`. -/
structure Metadata where
  kic_number : ℤ
  total_files : ℕ
  processed_files : ℕ
  skipped_files : ℕ
  time_bin_size : ℚ
deriving DecidableEq

/-- Filesystem state relevant to one KIC target: existence of the
scratch directory `data/kic_N`, of the results directory
`results/deviation_array/kic_N`, and the contents (if present) of the
two artifact files inside the results directory. -/
structure FS where
  dataDir : Bool
  resultsDir : Bool
  deviationTxt : Option (List Val)
  metadataJson : Option Metadata
deriving DecidableEq

/-- A filesystem with no directories and no artifacts for the target. -/
def emptyFS : FS := ⟨false, false, none, none⟩

/-- Python slicing `l[:n]` for an `int` n: a nonnegative bound keeps the
first `n` elements, a negative bound drops the last `|n|`. -/
def pySlice {α : Type} (l : List α) (n : ℤ) : List α :=
  if 0 ≤ n then l.take n.toNat else l.take (l.length - n.natAbs)

/-- Embedding of the limiting step (process_kic_target.py lines 74-79):
`if max_files and max_files < len(search_result)` — note that Python
truthiness makes `max_files = 0` skip the truncation. -/
def limitHandles (max_files : Option ℤ) (search : List HandleEnv) : List HandleEnv :=
  match max_files with
  | none => search
  | some m => if m ≠ 0 ∧ m < (search.length : ℤ) then pySlice search m else search

/-- Write of `deviation.txt` by `np.savetxt` (line 136), as a step on
the filesystem state. -/
def writeDeviation (fs : FS) (devs : List Val) : FS :=
  { fs with deviationTxt := some devs }

/-- Write of `metadata.json` by `json.dump` (lines 139-140). -/
def writeMetadata (fs : FS) (m : Metadata) : FS :=
  { fs with metadataJson := some m }

/-- The persistence step of a successful batch (lines 132-140): the two
artifact files are written one after the other, deviation array first. -/
def saveResults (fs : FS) (devs : List Val) (m : Metadata) : FS :=
  writeMetadata (writeDeviation fs devs) m

/-- The filesystem states a run passes through while persisting a
ResultSet: before any write, after `deviation.txt` alone, and after
both files — a failure partway through persistence stops at one of
these states. -/
def saveStates (fs : FS) (devs : List Val) (m : Metadata) : List FS :=
  [fs, writeDeviation fs devs, saveResults fs devs m]

/-- The all-or-nothing condition on the two artifacts: `deviation.txt`
exists exactly when `metadata.json` does. -/
def bothOrNeither (fs : FS) : Bool :=
  fs.deviationTxt.isSome == fs.metadataJson.isSome

/-- Observable outcome of one `process_kic_target` run: the final
filesystem state, and the final `metadata` dict when the run got past
discovery (`none` on the zero-handles early return, which returns
before the dict is built). -/
structure RunResult where
  fs : FS
  meta : Option Metadata
deriving DecidableEq

/-- Embedding of `process_kic_target` (process_kic_target.py lines
44-150). Inputs beyond the Python arguments: `search` is what
`lk.search_lightcurve` returns together with each handle's download and
conversion behaviour, and `fs0` is the pre-existing filesystem state
for this target. Steps: create both directories; early-return if the
search is empty; limit the handle list; run the loop; if anything was
processed write `deviation.txt` then `metadata.json`, otherwise remove
the results directory; finally remove the data directory. -/
def process_kic_target (kic : ℤ) (timeout : ℚ) (max_files : Option ℤ)
    (search : List HandleEnv) (fs0 : FS) : RunResult :=
  let fs1 : FS := { fs0 with dataDir := true, resultsDir := true }
  if search.length = 0 then
    ⟨fs1, none⟩
  else
    let handles := limitHandles max_files search
    let final := runLoop timeout handles ⟨[], 0, 0⟩
    let meta : Metadata :=
      ⟨kic, handles.length, final.processed, final.skipped, 1/2⟩
    if 0 < final.processed then
      ⟨{ saveResults fs1 final.all_deviations meta with dataDir := false }, some meta⟩
    else
      ⟨⟨false, false, none, none⟩, some meta⟩

/-- The capability does not return by the deadline: it either never
returns, or returns only strictly after `timeout` seconds. -/
def exceedsDeadline : DlCap → ℚ → Bool
  | .never, _ => true
  | .returns t _, timeout => decide (timeout < t)

/-- A handle whose download succeeds at once, whose file exists, and
which converts to the slice `[1.0, -2.0]`. -/
def goodHandle : HandleEnv :=
  ⟨.returns 3 (.ok ⟨"a.fits"⟩), true, .ok [some 1, some (-2)]⟩

/-- A handle whose download capability never returns. -/
def timeoutHandle : HandleEnv := ⟨.never, true, .ok []⟩

/-- A handle that downloads but whose conversion raises the
empty-window `ValueError`. -/
def emptyWindowHandle : HandleEnv :=
  ⟨.returns 2 (.ok ⟨"c.fits"⟩), true,
    .error "No data available between 0 and 1 days"⟩

/-- A handle whose download reports success but whose returned file
path does not exist on disk. -/
def ghostHandle : HandleEnv := ⟨.returns 1 (.ok ⟨"g.fits"⟩), false, .ok [some 5]⟩

theorem stepBody_one_of (r : DwtResult) (h : HandleEnv) (s : LoopState) :
    ((stepBody r h s).processed = s.processed + 1 ∧ (stepBody r h s).skipped = s.skipped)
    ∨ ((stepBody r h s).processed = s.processed ∧ (stepBody r h s).skipped = s.skipped + 1) := by
  unfold stepBody
  rcases r with ⟨succ, lc, err, el⟩
  rcases succ <;> rcases lc <;> rcases h with ⟨cap, fe, conv⟩ <;> rcases fe <;> rcases conv <;> simp

theorem stepHandle_one_of (timeout : ℚ) (h : HandleEnv) (s : LoopState) :
    ((stepHandle timeout h s).processed = s.processed + 1 ∧ (stepHandle timeout h s).skipped = s.skipped)
    ∨ ((stepHandle timeout h s).processed = s.processed ∧ (stepHandle timeout h s).skipped = s.skipped + 1) :=
  stepBody_one_of _ h s

theorem stepHandle_inc (timeout : ℚ) (h : HandleEnv) (s : LoopState) :
    (stepHandle timeout h s).processed + (stepHandle timeout h s).skipped
      = s.processed + s.skipped + 1 := by
  rcases stepHandle_one_of timeout h s with ⟨h1, h2⟩ | ⟨h1, h2⟩ <;> omega

theorem runLoop_nil (timeout : ℚ) (s : LoopState) : runLoop timeout [] s = s := rfl

theorem runLoop_cons (timeout : ℚ) (h : HandleEnv) (hs : List HandleEnv) (s : LoopState) :
    runLoop timeout (h :: hs) s = runLoop timeout hs (stepHandle timeout h s) := rfl

theorem runLoop_counts (timeout : ℚ) (hs : List HandleEnv) :
    ∀ s : LoopState, (runLoop timeout hs s).processed + (runLoop timeout hs s).skipped
      = s.processed + s.skipped + hs.length := by
  induction hs with
  | nil => intro s; simp [runLoop_nil]
  | cons h t ih =>
    intro s
    rw [runLoop_cons]
    have h1 := ih (stepHandle timeout h s)
    have h2 := stepHandle_inc timeout h s
    simp only [List.length_cons]
    omega

theorem dwt_success_lc (cap : DlCap) (timeout : ℚ) :
    (download_with_timeout cap timeout).success = true →
    ∃ lc, (download_with_timeout cap timeout).lc = some lc := by
  rcases cap with ⟨t, res⟩ | _
  · by_cases ht : t ≤ timeout
    · rcases res with e | lc
      · intro hs; simp [download_with_timeout, ht] at hs
      · intro _; exact ⟨lc, by simp [download_with_timeout, ht]⟩
    · intro hs; simp [download_with_timeout, ht] at hs
  · intro hs; simp [download_with_timeout] at hs

theorem dwt_of_deadline (cap : DlCap) (timeout : ℚ)
    (hx : exceedsDeadline cap timeout = true) :
    download_with_timeout cap timeout
      = ⟨false, none, some "Download timed out", timeout⟩ := by
  rcases cap with ⟨t, res⟩ | _
  · have ht : timeout < t := by simpa [exceedsDeadline] using hx
    simp [download_with_timeout, not_le.mpr ht]
  · rfl

theorem stepBody_skip_of_fail (r : DwtResult) (h : HandleEnv) (s : LoopState)
    (hf : r.success = false) :
    stepBody r h s = { s with skipped := s.skipped + 1 } := by
  unfold stepBody
  rw [if_pos hf]

theorem process_eq_empty (kic : ℤ) (timeout : ℚ) (max_files : Option ℤ) (fs0 : FS) :
    process_kic_target kic timeout max_files [] fs0
      = ⟨{ fs0 with dataDir := true, resultsDir := true }, none⟩ := rfl

theorem process_meta_of_ne (kic : ℤ) (timeout : ℚ) (max_files : Option ℤ)
    (search : List HandleEnv) (fs0 : FS) (hne : search ≠ []) :
    (process_kic_target kic timeout max_files search fs0).meta
      = some ⟨kic, (limitHandles max_files search).length,
              (runLoop timeout (limitHandles max_files search) ⟨[], 0, 0⟩).processed,
              (runLoop timeout (limitHandles max_files search) ⟨[], 0, 0⟩).skipped, 1/2⟩ := by
  have hlen : ¬ search.length = 0 := by simpa using hne
  simp only [process_kic_target]
  rw [if_neg hlen]
  split <;> rfl

theorem process_dataDir_of_ne (kic : ℤ) (timeout : ℚ) (max_files : Option ℤ)
    (search : List HandleEnv) (fs0 : FS) (hne : search ≠ []) :
    (process_kic_target kic timeout max_files search fs0).fs.dataDir = false := by
  have hlen : ¬ search.length = 0 := by simpa using hne
  simp only [process_kic_target]
  rw [if_neg hlen]
  split <;> rfl

theorem process_bon_of_ne (kic : ℤ) (timeout : ℚ) (max_files : Option ℤ)
    (search : List HandleEnv) (fs0 : FS) (hne : search ≠ []) :
    bothOrNeither (process_kic_target kic timeout max_files search fs0).fs = true := by
  have hlen : ¬ search.length = 0 := by simpa using hne
  simp only [process_kic_target]
  rw [if_neg hlen]
  split <;> rfl

/-- C1: for every run of `process_kic_target` that reaches completion
(past discovery, so a metadata record is produced), the final metadata
satisfies `processed_files + skipped_files = total_files`, where
`total_files` is the discovered count after `max_files` limiting; and
each handle iteration increments exactly one of the two counters. -/
theorem counts_invariant_C1 (kic : ℤ) (timeout : ℚ) (max_files : Option ℤ)
    (search : List HandleEnv) (fs0 : FS) (hne : search ≠ []) :
    (∃ m : Metadata,
      (process_kic_target kic timeout max_files search fs0).meta = some m ∧
      m.processed_files + m.skipped_files = m.total_files ∧
      m.total_files = (limitHandles max_files search).length) ∧
    ∀ (h : HandleEnv) (s : LoopState),
      ((stepHandle timeout h s).processed = s.processed + 1 ∧
       (stepHandle timeout h s).skipped = s.skipped) ∨
      ((stepHandle timeout h s).processed = s.processed ∧
       (stepHandle timeout h s).skipped = s.skipped + 1) := by
  constructor
  · refine ⟨_, process_meta_of_ne kic timeout max_files search fs0 hne, ?_, rfl⟩
    have hc := runLoop_counts timeout (limitHandles max_files search) ⟨[], 0, 0⟩
    simpa using hc
  · intro h s
    exact stepHandle_one_of timeout h s

/-- Witness for C1 at the three-file scenario environment. -/
theorem counts_invariant_C1_witness :
    (∃ m : Metadata,
      (process_kic_target 99 120 none [goodHandle, timeoutHandle, emptyWindowHandle] emptyFS).meta = some m ∧
      m.processed_files + m.skipped_files = m.total_files ∧
      m.total_files = (limitHandles none [goodHandle, timeoutHandle, emptyWindowHandle]).length) ∧
    ∀ (h : HandleEnv) (s : LoopState),
      ((stepHandle 120 h s).processed = s.processed + 1 ∧
       (stepHandle 120 h s).skipped = s.skipped) ∨
      ((stepHandle 120 h s).processed = s.processed ∧
       (stepHandle 120 h s).skipped = s.skipped + 1) :=
  counts_invariant_C1 99 120 none [goodHandle, timeoutHandle, emptyWindowHandle] emptyFS (by decide)

/-- C2 (amended): a run whose search returns zero handles terminates
early with no metadata record, writes neither artifact (the files keep
their prior state), and leaves the two freshly created directories in
place — they are not removed. -/
theorem empty_search_C2 (kic : ℤ) (timeout : ℚ) (max_files : Option ℤ) (fs0 : FS) :
    process_kic_target kic timeout max_files [] fs0
      = ⟨{ fs0 with dataDir := true, resultsDir := true }, none⟩ :=
  process_eq_empty kic timeout max_files fs0

/-- C2 counterexample: after a zero-handles run starting from a clean
filesystem, the freshly created partial results directory for the id
still exists — it is not removed, contrary to the claim. -/
theorem empty_search_C2_counterexample :
    ¬ ((process_kic_target 7 120 none [] emptyFS).fs.resultsDir = false) := by decide

/-- C3: when the download capability does not return within the
timeout, `download_with_timeout` reports `success = false` with the
timeout message after waiting exactly the timeout (no longer), returns
no light-curve object; the loop counts that file as skipped and
proceeds with the remaining handles; and the eventual stray result of
the detached download never affects the batch (the step is the same
whatever the capability would later produce). -/
theorem deadline_C3 (h : HandleEnv) (timeout : ℚ) (s : LoopState)
    (rest : List HandleEnv) (hx : exceedsDeadline h.cap timeout = true) :
    (download_with_timeout h.cap timeout).success = false ∧
    (download_with_timeout h.cap timeout).error = some "Download timed out" ∧
    (download_with_timeout h.cap timeout).elapsed ≤ timeout ∧
    (download_with_timeout h.cap timeout).lc = none ∧
    stepHandle timeout h s = { s with skipped := s.skipped + 1 } ∧
    runLoop timeout (h :: rest) s = runLoop timeout rest { s with skipped := s.skipped + 1 } ∧
    ∀ cap2 : DlCap, exceedsDeadline cap2 timeout = true →
      stepHandle timeout { h with cap := cap2 } s = stepHandle timeout h s := by
  have hd := dwt_of_deadline h.cap timeout hx
  have hstep : stepHandle timeout h s = { s with skipped := s.skipped + 1 } := by
    unfold stepHandle
    rw [hd]
    exact stepBody_skip_of_fail _ h s rfl
  refine ⟨by simp [hd], by simp [hd], by simp [hd], by simp [hd], hstep, ?_, ?_⟩
  · rw [runLoop_cons, hstep]
  · intro cap2 hx2
    have hd2 := dwt_of_deadline cap2 timeout hx2
    have hstep2 : stepHandle timeout { h with cap := cap2 } s
        = { s with skipped := s.skipped + 1 } := by
      unfold stepHandle
      rw [show ({ h with cap := cap2 } : HandleEnv).cap = cap2 from rfl, hd2]
      exact stepBody_skip_of_fail _ _ s rfl
    rw [hstep2, hstep]

/-- Witness for C3 at a never-returning capability. -/
theorem deadline_C3_witness :
    (download_with_timeout timeoutHandle.cap 120).success = false ∧
    (download_with_timeout timeoutHandle.cap 120).error = some "Download timed out" ∧
    (download_with_timeout timeoutHandle.cap 120).elapsed ≤ 120 ∧
    (download_with_timeout timeoutHandle.cap 120).lc = none ∧
    stepHandle 120 timeoutHandle ⟨[], 0, 0⟩ = { (⟨[], 0, 0⟩ : LoopState) with skipped := 0 + 1 } ∧
    runLoop 120 (timeoutHandle :: []) ⟨[], 0, 0⟩
      = runLoop 120 [] { (⟨[], 0, 0⟩ : LoopState) with skipped := 0 + 1 } ∧
    ∀ cap2 : DlCap, exceedsDeadline cap2 120 = true →
      stepHandle 120 { timeoutHandle with cap := cap2 } ⟨[], 0, 0⟩
        = stepHandle 120 timeoutHandle ⟨[], 0, 0⟩ :=
  deadline_C3 timeoutHandle 120 ⟨[], 0, 0⟩ [] (by decide)

/-- C4 counterexample: persistence is not atomic — among the states a
run passes through while saving (array written first, metadata second),
the intermediate one has `deviation.txt` without `metadata.json`,
so "after any run, either both artifacts exist or neither does" fails
for a run that stops between the two writes. -/
theorem atomic_save_C4_counterexample :
    ¬ (∀ fs ∈ saveStates emptyFS [some 1] ⟨7, 1, 1, 0, 1/2⟩, bothOrNeither fs = true) := by
  decide

/-- C4 (amended): the two artifacts are written sequentially, deviation
array first and metadata second, with no atomicity mechanism — the
intermediate persistence state holds the array alone — but any run of
`process_kic_target` that runs to completion ends with both artifacts
or neither, provided the prior state already satisfied that condition
(the zero-handles early return leaves the files untouched). -/
theorem atomic_save_C4 (kic : ℤ) (timeout : ℚ) (max_files : Option ℤ)
    (search : List HandleEnv) (fs0 : FS) (h0 : bothOrNeither fs0 = true) :
    bothOrNeither (process_kic_target kic timeout max_files search fs0).fs = true ∧
    ∀ devs : List Val, bothOrNeither (writeDeviation emptyFS devs) = false := by
  refine ⟨?_, fun devs => rfl⟩
  by_cases hne : search = []
  · subst hne
    rw [process_eq_empty]
    simpa [bothOrNeither] using h0
  · exact process_bon_of_ne kic timeout max_files search fs0 hne

/-- Witness for C4 at a clean filesystem and a one-handle search. -/
theorem atomic_save_C4_witness :
    bothOrNeither emptyFS = true ∧
    (bothOrNeither (process_kic_target 7 120 none [goodHandle] emptyFS).fs = true ∧
     ∀ devs : List Val, bothOrNeither (writeDeviation emptyFS devs) = false) :=
  ⟨by decide, atomic_save_C4 7 120 none [goodHandle] emptyFS (by decide)⟩

/-- C5 (amended): when `max_files` is given, positive, and smaller than
the discovered count, the handle list is truncated to the first
`max_files` handles in discovery order, `total_files` in the metadata
equals the truncated count, and no more than `max_files` handles are
processed. (The counterexample shows the claim fails as stated for
`max_files = 0`, which Python truthiness treats as "not given".) -/
theorem max_files_truncation_C5 (kic : ℤ) (timeout : ℚ) (m : ℤ)
    (search : List HandleEnv) (fs0 : FS)
    (h0 : 0 < m) (hlt : m < (search.length : ℤ)) :
    limitHandles (some m) search = search.take m.toNat ∧
    ∃ md : Metadata,
      (process_kic_target kic timeout (some m) search fs0).meta = some md ∧
      md.total_files = m.toNat ∧ md.processed_files ≤ m.toNat := by
  have hne : search ≠ [] := by
    intro h
    subst h
    simp at hlt
    omega
  have hm0 : m ≠ 0 := by omega
  have hlim : limitHandles (some m) search = search.take m.toNat := by
    simp [limitHandles, pySlice, hm0, hlt, le_of_lt h0]
  have hle : m.toNat ≤ search.length := by omega
  have hlength : (limitHandles (some m) search).length = m.toNat := by
    rw [hlim, List.length_take]
    omega
  refine ⟨hlim, _, process_meta_of_ne kic timeout (some m) search fs0 hne, hlength, ?_⟩
  show (runLoop timeout (limitHandles (some m) search) ⟨[], 0, 0⟩).processed ≤ m.toNat
  have hc := runLoop_counts timeout (limitHandles (some m) search) ⟨[], 0, 0⟩
  rw [hlength] at hc
  simp at hc
  omega

/-- Witness for C5 with `max_files = 1` over a two-handle search. -/
theorem max_files_truncation_C5_witness :
    limitHandles (some 1) [goodHandle, timeoutHandle]
      = ([goodHandle, timeoutHandle] : List HandleEnv).take (1 : ℤ).toNat ∧
    ∃ md : Metadata,
      (process_kic_target 7 120 (some 1) [goodHandle, timeoutHandle] emptyFS).meta = some md ∧
      md.total_files = (1 : ℤ).toNat ∧ md.processed_files ≤ (1 : ℤ).toNat :=
  max_files_truncation_C5 7 120 1 [goodHandle, timeoutHandle] emptyFS (by decide) (by decide)

/-- C5 counterexample: with `max_files = 0` and one discovered handle,
Python's `if max_files and ...` treats 0 as false, so no truncation
happens — the list is not cut to the first 0 handles and one file (more
than `max_files`) gets processed. -/
theorem max_files_truncation_C5_counterexample :
    limitHandles (some 0) [goodHandle] ≠ ([goodHandle] : List HandleEnv).take 0 ∧
    ¬ ((process_kic_target 7 120 (some 0) [goodHandle] emptyFS).meta.map
        Metadata.processed_files = some 0) := by
  decide

/-- C6: in the three-file scenario — one file downloads and converts to
`[1.0, -2.0]`, one times out, one fails conversion with the
empty-window error — the run ends with `processed = 1`, `skipped = 2`,
`total_files = 3`, and the stored deviation array is `[1.0, -2.0]`. -/
theorem scenario_C6 :
    process_kic_target 99 120 none [goodHandle, timeoutHandle, emptyWindowHandle] emptyFS
      = ⟨⟨false, true, some [some 1, some (-2)], some ⟨99, 3, 1, 2, 1/2⟩⟩,
         some ⟨99, 3, 1, 2, 1/2⟩⟩ := rfl

/-- C7 (amended): every run that gets past discovery (a nonempty search
result) removes the scratch data directory by the end of the run,
whatever the outcome of the per-file loop; on the zero-handles early
return, however, the just-created scratch directory is left in place. -/
theorem scratch_cleanup_C7 (kic : ℤ) (timeout : ℚ) (max_files : Option ℤ)
    (search : List HandleEnv) (fs0 : FS) (hne : search ≠ []) :
    (process_kic_target kic timeout max_files search fs0).fs.dataDir = false :=
  process_dataDir_of_ne kic timeout max_files search fs0 hne

/-- Witness for C7 at an all-skipped one-handle run. -/
theorem scratch_cleanup_C7_witness :
    (process_kic_target 7 120 none [timeoutHandle] emptyFS).fs.dataDir = false :=
  scratch_cleanup_C7 7 120 none [timeoutHandle] emptyFS (by decide)

/-- C7 counterexample: a run whose search discovers zero files returns
early and leaves the scratch data directory it just created — cleanup
is not "regardless of outcome". -/
theorem scratch_cleanup_C7_counterexample :
    ¬ ((process_kic_target 7 120 none [] emptyFS).fs.dataDir = false) := by decide

/-- C10: when a handle's download reports success but the returned file
path does not exist on disk, the loop counts the file as skipped,
appends nothing to the deviation array, and continues with the next
handle. -/
theorem missing_file_C10 (timeout : ℚ) (h : HandleEnv) (s : LoopState)
    (rest : List HandleEnv)
    (hsucc : (download_with_timeout h.cap timeout).success = true)
    (hf : h.fileExists = false) :
    stepHandle timeout h s = { s with skipped := s.skipped + 1 } ∧
    (stepHandle timeout h s).all_deviations = s.all_deviations ∧
    runLoop timeout (h :: rest) s = runLoop timeout rest { s with skipped := s.skipped + 1 } := by
  obtain ⟨lc, hlc⟩ := dwt_success_lc h.cap timeout hsucc
  have hstep : stepHandle timeout h s = { s with skipped := s.skipped + 1 } := by
    unfold stepHandle stepBody
    simp [hsucc, hlc, hf]
  refine ⟨hstep, by rw [hstep], by rw [runLoop_cons, hstep]⟩

/-- Witness for C10 at a handle whose successful download points at a
missing file. -/
theorem missing_file_C10_witness :
    stepHandle 120 ghostHandle ⟨[], 0, 0⟩
      = { (⟨[], 0, 0⟩ : LoopState) with skipped := 0 + 1 } ∧
    (stepHandle 120 ghostHandle ⟨[], 0, 0⟩).all_deviations = ([] : List Val) ∧
    runLoop 120 (ghostHandle :: [goodHandle]) ⟨[], 0, 0⟩
      = runLoop 120 [goodHandle] { (⟨[], 0, 0⟩ : LoopState) with skipped := 0 + 1 } :=
  missing_file_C10 120 ghostHandle ⟨[], 0, 0⟩ [goodHandle] (by decide) rfl

/-- Numeric value of an ASCII digit character. -/
def digitVal (c : Char) : ℕ := c.toNat - 48

/-- Value of a big-endian ASCII digit string. -/
def readNatVal (l : List Char) : ℕ := l.foldl (fun a c => 10 * a + digitVal c) 0

/-- All characters are ASCII digits. -/
def isDigits (l : List Char) : Bool := l.all (·.isDigit)

/-- Leading-sign handling shared by Python `int()` and `float()`: strip
one leading `-` or `+`, reporting whether the value is negated. -/
def readSign (l : List Char) : Bool × List Char :=
  match l with
  | [] => (false, [])
  | c :: rest =>
    if c = '-' then (true, rest) else if c = '+' then (false, rest) else (false, l)

/-- Whitespace as stripped by Python's `str.strip()`. -/
def pyIsSpace (c : Char) : Bool :=
  c = ' ' || c = '\t' || c = '\n' || c = '\r' || c = '\x0b' || c = '\x0c'

/-- Model of Python `str.strip()` on a character list. -/
def stripChars (l : List Char) : List Char :=
  ((l.dropWhile pyIsSpace).reverse.dropWhile pyIsSpace).reverse

/-- Modelled from the spec and the Python builtin: `int(s)` accepts
optional surrounding whitespace, an optional sign, and a nonempty run
of decimal digits; anything else raises `ValueError`, modelled as
`none`. -/
def pyInt? (s : String) : Option ℤ :=
  let cs := stripChars s.data
  let p := readSign cs
  if p.2 ≠ [] ∧ isDigits p.2 = true then
    some (if p.1 then -(readNatVal p.2 : ℤ) else (readNatVal p.2 : ℤ))
  else none

/-- Model of Python `str.split("_")`: maximal segments between
underscores (never an empty list of segments). -/
def splitUnderscore : List Char → List (List Char)
  | [] => [[]]
  | c :: rest =>
    match splitUnderscore rest with
    | [] => [[c]]
    | seg :: segs => if c = '_' then [] :: seg :: segs else (c :: seg) :: segs

/-- The expression `d.name.split("_")[1]` from main.py line 189 (the
index exists for every name that starts with `kic_`). -/
def secondSeg (s : String) : String := String.mk ((splitUnderscore s.data).getD 1 [])

/-- Model of Python `str.startswith`. -/
def strStartsWith (s p : String) : Bool := p.data.isPrefixOf s.data

/-- The `[int(d.name.split("_")[1]) for d in kic_dirs]` comprehension:
left to right, the first invalid segment raises `ValueError` (modelled
as `Except.error` carrying the offending name). -/
def kicIdList : List String → Except String (List ℤ)
  | [] => .ok []
  | d :: ds =>
    match pyInt? (secondSeg d) with
    | none => .error d
    | some n =>
      match kicIdList ds with
      | .error e => .error e
      | .ok l => .ok (n :: l)

/-- Embedding of `get_available_kics` (main.py lines 183-191): the scan
of the result root is modelled by the list of subdirectory names; keep
those starting with `kic_`, then parse the second underscore segment of
each as an integer. -/
def get_available_kics (dirs : List String) : Except String (List ℤ) :=
  kicIdList (dirs.filter (fun d => strStartsWith d "kic_"))

theorem kicIdList_ok (l : List String)
    (h : ∀ d ∈ l, (pyInt? (secondSeg d)).isSome = true) :
    kicIdList l = .ok (l.filterMap (fun d => pyInt? (secondSeg d))) := by
  induction l with
  | nil => rfl
  | cons d ds ih =>
    have hd := h d (by simp)
    obtain ⟨n, hn⟩ := Option.isSome_iff_exists.mp hd
    have hds := ih (fun x hx => h x (by simp [hx]))
    simp [kicIdList, hn, hds, List.filterMap_cons]

/-- C9 (amended): the list-ids scan skips subdirectories whose names do
not start with `kic_` without error, and when every `kic_`-prefixed
subdirectory name has a valid integer second segment it returns exactly
those ids; but a `kic_`-prefixed name whose second segment is not a
valid integer makes the whole operation raise `ValueError` instead of
being skipped. -/
theorem list_ids_C9 (bad : String) (dirs : List String)
    (hbad : strStartsWith bad "kic_" = false)
    (hok : ∀ d ∈ dirs, strStartsWith d "kic_" = true →
      (pyInt? (secondSeg d)).isSome = true) :
    get_available_kics (bad :: dirs) = get_available_kics dirs ∧
    get_available_kics dirs
      = .ok ((dirs.filter (fun d => strStartsWith d "kic_")).filterMap
          (fun d => pyInt? (secondSeg d))) := by
  constructor
  · simp [get_available_kics, List.filter_cons, hbad]
  · exact kicIdList_ok _ (fun d hd => by
      rw [List.mem_filter] at hd
      exact hok d hd.1 hd.2)

/-- Witness for C9: a non-`kic_` name is skipped and a well-formed
directory list yields its ids. -/
theorem list_ids_C9_witness :
    get_available_kics ("temp_plots" :: ["kic_123"]) = get_available_kics ["kic_123"] ∧
    get_available_kics ["kic_123"]
      = .ok ((["kic_123"].filter (fun d => strStartsWith d "kic_")).filterMap
          (fun d => pyInt? (secondSeg d))) :=
  list_ids_C9 "temp_plots" ["kic_123"] (by decide) (by decide)

/-- C9 counterexample: a malformed `kic_`-prefixed directory name is
not skipped — `int("abc")` raises, so the operation errors out instead
of returning the well-formed ids. -/
theorem list_ids_C9_counterexample :
    get_available_kics ["kic_abc"] = .error "kic_abc" := by decide

/-- A finite float value as a decimal-representable rational `mant /
10 ^ exp10`: every IEEE double is dyadic and hence of this form, so
quantifying over these covers every value the program can store. -/
structure DecimalFloat where
  mant : ℤ
  exp10 : ℕ
deriving DecidableEq

/-- The rational value of a stored entry (`none` = NaN marker). -/
def valOfRep : Option DecimalFloat → Val
  | none => none
  | some r => some ((r.mant : ℚ) / 10 ^ r.exp10)

/-- ASCII digit character of a value below ten. -/
def charOfDigit : ℕ → Char
  | 0 => '0' | 1 => '1' | 2 => '2' | 3 => '3' | 4 => '4'
  | 5 => '5' | 6 => '6' | 7 => '7' | 8 => '8' | _ => '9'

/-- The ten ASCII digit characters. -/
def digitChars : List Char := ['0', '1', '2', '3', '4', '5', '6', '7', '8', '9']

/-- Big-endian decimal digit string of a natural number. -/
def natToChars (n : ℕ) : List Char :=
  if n = 0 then ['0'] else (Nat.digits 10 n).reverse.map charOfDigit

/-- Modelled from the spec: the per-value text rendering of
`np.savetxt` (numpy is an external library; the spec fixes the contract
as "newline-delimited floating point values (one per line), `nan`
literal permitted per line"). The NaN marker renders as `nan`; a finite
value `m / 10^k` renders in scientific notation `<m>e-<k>`, numpy's
`%.18e` format being modelled as exact scientific-notation decimal
text over the dyadic (hence decimal-representable) doubles. -/
def renderValChars : Option DecimalFloat → List Char
  | none => ['n', 'a', 'n']
  | some r =>
    (if r.mant < 0 then ['-'] else [])
      ++ natToChars r.mant.natAbs ++ 'e' :: '-' :: natToChars r.exp10

/-- One output line of the array serialization. -/
def saveLine (v : Option DecimalFloat) : String := String.mk (renderValChars v)

/-- The serialized deviation array: one value per line. -/
def saveVals (vals : List (Option DecimalFloat)) : List String :=
  vals.map saveLine

/-- Model of Python `str.lower()` on one ASCII character. -/
def pyLower (c : Char) : Char :=
  if 65 ≤ c.toNat ∧ c.toNat ≤ 90 then Char.ofNat (c.toNat + 32) else c

/-- Model of Python `str.lower()` on a character list. -/
def lowerChars (l : List Char) : List Char := l.map pyLower

/-- Split a character list at the first character satisfying `p`
(which stays at the head of the second component). -/
def breakAt (p : Char → Bool) : List Char → List Char × List Char
  | [] => ([], [])
  | c :: rest =>
    if p c then ([], c :: rest)
    else
      let r := breakAt p rest
      (c :: r.1, r.2)

/-- Mantissa part of a float literal: digits with an optional decimal
point, at least one digit overall. -/
def parseMantissa (cs : List Char) : Option ℚ :=
  let b := breakAt (fun c => c = '.') cs
  match b.2 with
  | [] =>
    if b.1 ≠ [] ∧ isDigits b.1 = true then some ((readNatVal b.1 : ℚ)) else none
  | _ :: fp =>
    if (b.1 ≠ [] ∨ fp ≠ []) ∧ isDigits b.1 = true ∧ isDigits fp = true then
      some ((readNatVal b.1 : ℚ) + (readNatVal fp : ℚ) / 10 ^ fp.length)
    else none

/-- Modelled from the spec and the Python builtin: `float(s)` on an
already-stripped string — optional sign, decimal mantissa, optional
`e`/`E` exponent with optional sign; anything else raises `ValueError`
(`none`). The repository always strips the line before calling
`float`, so surrounding whitespace never reaches this parser. -/
def pyFloatChars? (cs0 : List Char) : Option ℚ :=
  let s := readSign cs0
  let e := breakAt (fun c => c = 'e' || c = 'E') s.2
  match parseMantissa e.1 with
  | none => none
  | some mv =>
    let sv := if s.1 then -mv else mv
    match e.2 with
    | [] => some sv
    | _ :: ec =>
      let es := readSign ec
      if es.2 ≠ [] ∧ isDigits es.2 = true then
        some (if es.1 then sv / 10 ^ readNatVal es.2 else sv * 10 ^ readNatVal es.2)
      else none

/-- One iteration of the repository's NaN-tolerant loader
(plot_deviation.py lines 38-48): strip the line; a line spelling `nan`
case-insensitively appends the NaN marker; an empty line is skipped
(`none` here means no element appended); otherwise `float(line)`
appends its value, or the NaN marker if it raises. -/
def parseFallbackLine (line : String) : Option Val :=
  let t := stripChars line.data
  if lowerChars t = "nan".data then some none
  else if t = [] then none
  else
    match pyFloatChars? t with
    | some q => some (some q)
    | none => some none

/-- The repository's fallback text loader: the deviation file's lines
to the list of parsed values, in order. -/
def loadLinesFallback (lines : List String) : List Val :=
  lines.foldr
    (fun line acc =>
      match parseFallbackLine line with
      | none => acc
      | some v => v :: acc) []

theorem charOfDigit_mem (d : ℕ) (hd : d < 10) : charOfDigit d ∈ digitChars := by
  interval_cases d <;> decide

theorem digitVal_charOfDigit (d : ℕ) (hd : d < 10) : digitVal (charOfDigit d) = d := by
  interval_cases d <;> decide

theorem digitChar_facts (c : Char) (hc : c ∈ digitChars) :
    c.isDigit = true ∧ pyIsSpace c = false ∧ c ≠ '-' ∧ c ≠ '+' ∧
    c ≠ 'e' ∧ c ≠ 'E' ∧ c ≠ '.' ∧ pyLower c = c ∧ pyLower c ≠ 'n' := by
  fin_cases hc <;> refine ⟨by decide, by decide, by decide, by decide,
    by decide, by decide, by decide, by decide, by decide⟩

theorem natToChars_mem (n : ℕ) (c : Char) (hc : c ∈ natToChars n) : c ∈ digitChars := by
  unfold natToChars at hc
  by_cases h : n = 0
  · rw [if_pos h] at hc
    simp at hc
    subst hc
    decide
  · rw [if_neg h] at hc
    rw [List.mem_map] at hc
    obtain ⟨d, hd, rfl⟩ := hc
    rw [List.mem_reverse] at hd
    exact charOfDigit_mem d (Nat.digits_lt_base (by norm_num) hd)

theorem natToChars_ne_nil (n : ℕ) : natToChars n ≠ [] := by
  unfold natToChars
  by_cases h : n = 0
  · rw [if_pos h]
    simp
  · rw [if_neg h]
    have hd : Nat.digits 10 n ≠ [] := Nat.digits_ne_nil_iff_ne_zero.mpr h
    simp [hd]

theorem isDigits_natToChars (n : ℕ) : isDigits (natToChars n) = true := by
  unfold isDigits
  rw [List.all_eq_true]
  intro c hc
  exact (digitChar_facts c (natToChars_mem n c hc)).1

theorem foldl_digits (ds : List ℕ) (hds : ∀ d ∈ ds, d < 10) (a : ℕ) :
    (ds.reverse.map charOfDigit).foldl (fun acc c => 10 * acc + digitVal c) a
      = a * 10 ^ ds.length + Nat.ofDigits 10 ds := by
  induction ds generalizing a with
  | nil => simp [Nat.ofDigits]
  | cons d ds ih =>
    have hd : d < 10 := hds d (by simp)
    have hrec := ih (fun x hx => hds x (by simp [hx])) a
    rw [List.reverse_cons, List.map_append, List.foldl_append, hrec]
    simp [digitVal_charOfDigit d hd, Nat.ofDigits_cons, pow_succ]
    ring

theorem readNatVal_natToChars (n : ℕ) : readNatVal (natToChars n) = n := by
  by_cases h : n = 0
  · subst h
    decide
  · unfold natToChars readNatVal
    rw [if_neg h]
    rw [foldl_digits (Nat.digits 10 n) (fun d hd => Nat.digits_lt_base (by norm_num) hd) 0]
    rw [Nat.ofDigits_digits]
    simp

theorem dropWhile_eq_self_of (p : Char → Bool) (l : List Char)
    (h : ∀ c ∈ l, p c = false) : l.dropWhile p = l := by
  cases l with
  | nil => rfl
  | cons c cs => simp [List.dropWhile_cons, h c (by simp)]

theorem stripChars_eq_self (l : List Char) (h : ∀ c ∈ l, pyIsSpace c = false) :
    stripChars l = l := by
  unfold stripChars
  rw [dropWhile_eq_self_of _ _ h]
  rw [dropWhile_eq_self_of _ _ (fun c hc => h c (List.mem_reverse.mp hc))]
  exact List.reverse_reverse l

theorem breakAt_all (p : Char → Bool) (l : List Char)
    (h : ∀ c ∈ l, p c = false) : breakAt p l = (l, []) := by
  induction l with
  | nil => rfl
  | cons c cs ih =>
    have hc := h c (by simp)
    have hrec := ih (fun x hx => h x (by simp [hx]))
    simp [breakAt, hc, hrec]

theorem breakAt_append (p : Char → Bool) (l1 : List Char) (c : Char) (l2 : List Char)
    (h1 : ∀ x ∈ l1, p x = false) (h2 : p c = true) :
    breakAt p (l1 ++ c :: l2) = (l1, c :: l2) := by
  induction l1 with
  | nil => simp [breakAt, h2]
  | cons x xs ih =>
    have hx := h1 x (by simp)
    have hrec := ih (fun y hy => h1 y (by simp [hy]))
    simp [breakAt, hx, hrec]

theorem signedNatAbs (m : ℤ) :
    (if m < 0 then -((m.natAbs : ℚ)) else ((m.natAbs : ℚ))) = (m : ℚ) := by
  rcases lt_or_le m 0 with h | h
  · rw [if_pos h, Int.cast_natAbs, abs_of_neg (by exact_mod_cast h)]
    push_cast
    ring
  · rw [if_neg (not_lt.mpr h), Int.cast_natAbs, abs_of_nonneg (by exact_mod_cast h)]

theorem render_chars_mem (m : ℤ) (k : ℕ) (c : Char)
    (hc : c ∈ renderValChars (some ⟨m, k⟩)) :
    c ∈ digitChars ∨ c = '-' ∨ c = 'e' := by
  unfold renderValChars at hc
  rcases List.mem_append.mp hc with h12 | h3
  · rcases List.mem_append.mp h12 with h1 | h2
    · by_cases hm : m < 0
      · rw [if_pos hm] at h1
        simp at h1
        exact Or.inr (Or.inl h1)
      · rw [if_neg hm] at h1
        simp at h1
    · exact Or.inl (natToChars_mem _ c h2)
  · simp [List.mem_cons] at h3
    rcases h3 with h | h | h
    · exact Or.inr (Or.inr h)
    · exact Or.inr (Or.inl h)
    · exact Or.inl (natToChars_mem _ c h)

theorem render_not_space (m : ℤ) (k : ℕ) :
    ∀ c ∈ renderValChars (some ⟨m, k⟩), pyIsSpace c = false := by
  intro c hc
  rcases render_chars_mem m k c hc with h | h | h
  · exact (digitChar_facts c h).2.1
  · subst h; decide
  · subst h; decide

theorem render_ne_nil (m : ℤ) (k : ℕ) : renderValChars (some ⟨m, k⟩) ≠ [] := by
  simp [renderValChars]

theorem lower_render_ne_nan (m : ℤ) (k : ℕ) :
    lowerChars (renderValChars (some ⟨m, k⟩)) ≠ "nan".data := by
  have hnan : ("nan".data) = ['n', 'a', 'n'] := rfl
  rcases hAeq : natToChars m.natAbs with _ | ⟨c0, A'⟩
  · exact absurd hAeq (natToChars_ne_nil _)
  by_cases hm : m < 0
  · simp only [renderValChars]
    rw [if_pos hm]
    intro h
    simp [lowerChars] at h
    exact absurd h.1 (by decide)
  · simp only [renderValChars]
    rw [if_neg hm, List.nil_append, hAeq]
    intro h
    simp [lowerChars] at h
    have hc0 : c0 ∈ digitChars :=
      natToChars_mem m.natAbs c0 (by rw [hAeq]; exact List.mem_cons_self _ _)
    exact absurd h.1 ((digitChar_facts c0 hc0).2.2.2.2.2.2.2.2)

theorem readSign_of_head_digit (c : Char) (l : List Char) (hc : c ∈ digitChars) :
    readSign (c :: l) = (false, c :: l) := by
  obtain ⟨-, -, h1, h2, -, -, -, -, -⟩ := digitChar_facts c hc
  simp [readSign, h1, h2]

theorem readSign_neg (l : List Char) : readSign ('-' :: l) = (true, l) := by
  simp [readSign]

theorem parseMantissa_natToChars (n : ℕ) :
    parseMantissa (natToChars n) = some ((n : ℚ)) := by
  have hb := breakAt_all (fun c => c = '.') (natToChars n)
    (fun c hc => by simp [(digitChar_facts c (natToChars_mem n c hc)).2.2.2.2.2.2.1])
  simp [parseMantissa, hb, natToChars_ne_nil n, isDigits_natToChars n,
    readNatVal_natToChars n]

theorem pyFloat_render (m : ℤ) (k : ℕ) :
    pyFloatChars? (renderValChars (some ⟨m, k⟩)) = some ((m : ℚ) / 10 ^ k) := by
  have hbreak : breakAt (fun c => c = 'e' || c = 'E')
      (natToChars m.natAbs ++ 'e' :: '-' :: natToChars k)
      = (natToChars m.natAbs, 'e' :: '-' :: natToChars k) := by
    apply breakAt_append
    · intro x hx
      obtain ⟨-, -, -, -, he, hE, -, -, -⟩ := digitChar_facts x (natToChars_mem _ x hx)
      simp [he, hE]
    · simp
  have hKne := natToChars_ne_nil k
  have hKdig := isDigits_natToChars k
  have hmant := parseMantissa_natToChars m.natAbs
  by_cases hm : m < 0
  · have hrender : renderValChars (some ⟨m, k⟩)
        = '-' :: (natToChars m.natAbs ++ 'e' :: '-' :: natToChars k) := by
      simp only [renderValChars]
      rw [if_pos hm]
      rfl
    have hsv : -((m.natAbs : ℚ)) = (m : ℚ) := by
      have := signedNatAbs m
      rwa [if_pos hm] at this
    rw [hrender]
    simp [pyFloatChars?, readSign_neg, hbreak, hmant, hKne, hKdig,
      readNatVal_natToChars, hsv]
  · rcases hAeq : natToChars m.natAbs with _ | ⟨c0, A'⟩
    · exact absurd hAeq (natToChars_ne_nil _)
    have hc0 : c0 ∈ digitChars :=
      natToChars_mem m.natAbs c0 (by rw [hAeq]; exact List.mem_cons_self _ _)
    have hrender : renderValChars (some ⟨m, k⟩)
        = natToChars m.natAbs ++ 'e' :: '-' :: natToChars k := by
      simp only [renderValChars]
      rw [if_neg hm, List.nil_append]
    have hsign : readSign (natToChars m.natAbs ++ 'e' :: '-' :: natToChars k)
        = (false, natToChars m.natAbs ++ 'e' :: '-' :: natToChars k) := by
      rw [hAeq, List.cons_append]
      exact readSign_of_head_digit c0 _ hc0
    have hsv : ((m.natAbs : ℚ)) = (m : ℚ) := by
      have := signedNatAbs m
      rwa [if_neg hm] at this
    rw [hrender]
    simp [pyFloatChars?, hsign, readSign_neg, hbreak, hmant, hKne, hKdig,
      readNatVal_natToChars, hsv]

theorem parse_render (v : Option DecimalFloat) :
    parseFallbackLine (saveLine v) = some (valOfRep v) := by
  rcases v with _ | ⟨m, k⟩
  · decide
  · have hstrip : stripChars (renderValChars (some ⟨m, k⟩)) = renderValChars (some ⟨m, k⟩) :=
      stripChars_eq_self _ (render_not_space m k)
    have hdata : (saveLine (some ⟨m, k⟩)).data = renderValChars (some ⟨m, k⟩) := rfl
    simp only [parseFallbackLine, hdata, hstrip]
    rw [if_neg (lower_render_ne_nan m k), if_neg (render_ne_nil m k), pyFloat_render m k]
    rfl

/-- C8: round-trip — serializing any deviation array (each entry a NaN
missing-value marker or a decimal-representable finite value, which
covers every IEEE double) to newline-delimited text and loading it back
with the repository's NaN-tolerant loader yields an array equal to the
original, with the missing-value markers preserved at the same
positions. -/
theorem roundtrip_C8 (vals : List (Option DecimalFloat)) :
    loadLinesFallback (saveVals vals) = vals.map valOfRep := by
  induction vals with
  | nil => rfl
  | cons v vs ih =>
    have h1 : loadLinesFallback (saveVals (v :: vs))
        = valOfRep v :: loadLinesFallback (saveVals vs) := by
      simp only [saveVals, List.map_cons, loadLinesFallback, List.foldr_cons]
      rw [parse_render v]
    rw [h1, ih, List.map_cons]
